import Mathlib

/-!
Verification of the lucidshark-duplo duplicate-detection engine.

This file is a shallow embedding, in Lean 4, of the Rust sources of the
duplicate-detection engine (src/core/hash.rs, src/core/source_line.rs,
src/core/source_file.rs, src/core/block.rs, src/core/processor.rs,
src/filetype/mod.rs, src/filetype/unknown.rs, src/cache/storage.rs,
src/baseline/storage.rs, src/config.rs), together with theorems settling
the specification's claims about it.

Modelling conventions:
* Rust `String` / `&str` values are modelled as `List Char`; Rust byte
  sequences (`Vec<u8>`, `&[u8]`) as `List Nat` with every element < 256.
* `u32`/`u64`/`usize` arithmetic is modelled on `Nat`, taking `% 2 ^ 32`
  (resp. `% 2 ^ 64`) exactly where the Rust code wraps
  (`wrapping_mul` in the FNV hash).  The remaining arithmetic
  (line counts, indices) cannot overflow for in-memory inputs and is
  modelled on plain `Nat`.
* `std::collections::hash_map::DefaultHasher` (SipHash, part of the Rust
  standard library, not of this repository) is modelled as an abstract
  function parameter: every theorem quantifies over it, so the results
  hold for any deterministic hasher.
* Unicode character classes from the Rust standard library
  (`char::is_alphabetic`) are likewise taken as an abstract parameter;
  `char::is_whitespace` (the Unicode White_Space property, a small fixed
  table) is embedded exactly.
-/

namespace Duplo

/-! ## Hashing (src/core/hash.rs) -/

/-- FNV-1a offset basis (32-bit), `FNV_OFFSET_BASIS` in hash.rs. -/
def FNV_OFFSET_BASIS : Nat := 2166136261

/-- FNV-1a prime (32-bit), `FNV_PRIME` in hash.rs. -/
def FNV_PRIME : Nat := 16777619

/-- One step of the FNV-1a loop: `hash ^= byte as u32; hash = hash.wrapping_mul(FNV_PRIME)`. -/
def fnv1aStep (hash byte : Nat) : Nat :=
  ((hash ^^^ byte) * FNV_PRIME) % 2 ^ 32

/-- `fnv1a_hash` of hash.rs: fold the FNV-1a step over a byte slice. -/
def fnv1a_hash (data : List Nat) : Nat :=
  data.foldl fnv1aStep FNV_OFFSET_BASIS

/-- UTF-8 encoding of a single character (the byte sequence `String::bytes`
iterates over in Rust), as a list of byte values. -/
def utf8Encode (c : Char) : List Nat :=
  let v := c.toNat
  if v < 0x80 then [v]
  else if v < 0x800 then [0xC0 + v / 64, 0x80 + v % 64]
  else if v < 0x10000 then [0xE0 + v / 4096, 0x80 + v / 64 % 64, 0x80 + v % 64]
  else [0xF0 + v / 262144, 0x80 + v / 4096 % 64, 0x80 + v / 64 % 64, 0x80 + v % 64]

/-- The UTF-8 bytes of a string (`line.bytes()` in Rust). -/
def strBytes (s : List Char) : List Nat :=
  s.flatMap utf8Encode

/-- `hash_line` of hash.rs: filter out the bytes with value `<= b' '` (32),
then FNV-1a hash the remainder: `line.bytes().filter(|&b| b > b' ')`. -/
def hash_line (line : List Char) : Nat :=
  fnv1a_hash ((strBytes line).filter (fun b => 32 < b))

/-! ## Source lines and files (src/core/source_line.rs, src/core/source_file.rs) -/

/-- `SourceLine` of source_line.rs: cleaned text, 1-indexed original line
number, and the FNV-1a hash of the whitespace-normalized text. -/
structure SourceLine where
  line : List Char
  line_number : Nat
  hash : Nat
deriving DecidableEq, Repr

/-- `SourceLine::new`: hash computed by `hash_line`. -/
def SourceLine.new (line : List Char) (line_number : Nat) : SourceLine :=
  { line := line, line_number := line_number, hash := hash_line line }

/-- The `PartialEq` instance of `SourceLine`: two lines are equal iff their
hashes match (used by the match-matrix build in processor.rs). -/
def SourceLine.hashEq (a b : SourceLine) : Bool :=
  a.hash == b.hash

/-- `SourceFile` of source_file.rs: path and the processed source lines. -/
structure SourceFile where
  filename : List Char
  source_lines : List SourceLine
deriving DecidableEq, Repr

/-- `SourceFile::num_lines`. -/
def SourceFile.num_lines (sf : SourceFile) : Nat :=
  sf.source_lines.length

/-- `SourceFile::get_line` (Rust indexes a `Vec`, which panics out of bounds;
all call sites index within bounds, so the embedding totalizes with a
default element). -/
def SourceFile.get_line (sf : SourceFile) (index : Nat) : SourceLine :=
  sf.source_lines.getD index (SourceLine.new [] 0)

/-! ## Configuration (src/config.rs) -/

/-- The fields of `Config` consulted by the detection engine, the cache and
the baseline (output/git/cache-path plumbing fields are not read by any
verified component and are omitted).  `min_chars` is `u32`,
`min_block_size` is `u32`, `block_percent_threshold` is `u8`; all are
modelled as `Nat`. -/
structure Config where
  min_chars : Nat
  min_block_size : Nat
  block_percent_threshold : Nat
  files_to_check : Nat
  num_threads : Nat
  ignore_same_filename : Bool
deriving DecidableEq, Repr

/-- `usize::MAX` on a 64-bit target. -/
def USIZE_MAX : Nat := 2 ^ 64 - 1

/-- `Config::effective_files_to_check`: 0 means all files (`usize::MAX`). -/
def Config.effective_files_to_check (cfg : Config) : Nat :=
  if cfg.files_to_check = 0 then USIZE_MAX else cfg.files_to_check

/-- `Config::cleaning_config_hash`: DefaultHasher over the only cleaning
field, `min_chars`.  The hasher (`hu32`) is the abstract model of
`DefaultHasher` fed one `u32`. -/
def Config.cleaning_config_hash (hu32 : Nat → Nat) (cfg : Config) : Nat :=
  hu32 cfg.min_chars

/-! ## Blocks (src/core/block.rs) -/

/-- `Block` of block.rs: a detected duplicate block between two files. -/
structure Block where
  source1_idx : Nat
  source2_idx : Nat
  line1 : Nat
  line2 : Nat
  count : Nat
deriving DecidableEq, Repr

/-- `Block::new`. -/
def Block.new (source1_idx source2_idx line1 line2 count : Nat) : Block :=
  { source1_idx := source1_idx, source2_idx := source2_idx,
    line1 := line1, line2 := line2, count := count }

/-! ## Effective minimum block size (src/core/processor.rs) -/

/-- `calc_min_block_size` of processor.rs:
`max(B, min(B, (max(m,n)*100) / P))` when `P > 0`, with the fallback
threshold 0 when `P = 0`. -/
def calc_min_block_size (cfg : Config) (m n : Nat) : Nat :=
  let min_from_threshold :=
    if 0 < cfg.block_percent_threshold then
      (Nat.max m n * 100) / cfg.block_percent_threshold
    else 0
  Nat.max cfg.min_block_size (Nat.min cfg.min_block_size min_from_threshold)

/-! ## Match matrix (src/core/processor.rs, `process_file_pair` lines 217-227)

`ThreadContext.reset_matrix` clears the portion `[0, m*n)` of the scratch
bit vector, and the build loop sets bit `x + n*y` exactly when
`source1.get_line(y) == source2.get_line(x)` (hash equality, via the
`PartialEq` of `SourceLine`).  Both diagonal scans only read indices inside
`[0, m*n)` (shown below in the scan bounds), so the stale bits above
`m*n` left over from matrix reuse are never read and are modelled as
`false`. -/

/-- Functional update of a bit vector modelled as `Nat → Bool`
(`matrix.set idx true`). -/
def bitSet (mat : Nat → Bool) (idx : Nat) : Nat → Bool :=
  fun k => if k = idx then true else mat k

/-- Matrix build, rows then columns, mirroring the nested `for` loops:
`matrix.set(x + n*y, true)` exactly when the two lines compare equal. -/
def buildMatrix (lines1 lines2 : List SourceLine) : Nat → Bool :=
  let n := lines2.length
  lines1.enum.foldl
    (fun mat yl =>
      lines2.enum.foldl
        (fun mat xl =>
          if SourceLine.hashEq yl.2 xl.2 then bitSet mat (xl.1 + n * yl.1) else mat)
        mat)
    (fun _ => false)

/-! ## Diagonal scans (src/core/processor.rs, lines 234-298) -/

/-- Emission guard shared by all four emission sites: emit the block when
the run length reaches the effective minimum, discarding self-pair blocks
with `line1 == line2`. -/
def emitBlock (i1 i2 line1 line2 seqLen minB : Nat) (isSameFile : Bool) : List Block :=
  if minB ≤ seqLen then
    if !isSameFile || line1 ≠ line2 then [Block.new i1 i2 line1 line2 seqLen] else []
  else []

/-- Vertical diagonal scan, inner loop for one starting row `y`:
the arguments are the current column `x`, the remaining number of
iterations (initially `max_x = min(n, m-y)`), and the current run length
`seq_len`.  The cell read is `matrix[x + n*(y+x)]`; when the run breaks the
block starts at `(y+x-seq_len, x-seq_len)`; at the end of the diagonal the
source computes `line1 = m - seq_len` and `line2 = min(n, m-y) - seq_len`. -/
def vScanGo (mat : Nat → Bool) (m n y i1 i2 minB : Nat) (isSameFile : Bool) :
    Nat → Nat → Nat → List Block
  | _x, 0, seqLen =>
      emitBlock i1 i2 (m - seqLen) (Nat.min n (m - y) - seqLen) seqLen minB isSameFile
  | x, r + 1, seqLen =>
      if mat (x + n * (y + x)) then
        vScanGo mat m n y i1 i2 minB isSameFile (x + 1) r (seqLen + 1)
      else
        emitBlock i1 i2 (y + x - seqLen) (x - seqLen) seqLen minB isSameFile ++
          vScanGo mat m n y i1 i2 minB isSameFile (x + 1) r 0

/-- Vertical pass: rows `y ∈ [0, m)`, each walking `min(n, m-y)` cells. -/
def vScan (mat : Nat → Bool) (m n i1 i2 minB : Nat) (isSameFile : Bool) : List Block :=
  (List.range m).flatMap
    (fun y => vScanGo mat m n y i1 i2 minB isSameFile 0 (Nat.min n (m - y)) 0)

/-- Horizontal diagonal scan, inner loop for one starting column `x`:
the arguments are the current row `y`, the remaining number of iterations
(initially `max_y = min(m, n-x)`), and the run length.  The cell read is
`matrix[x + y + n*y]`; on a break the block starts at
`(y-seq_len, x+y-seq_len)`; at the end of the diagonal the source computes
`line1 = m - seq_len` and `line2 = n - seq_len`. -/
def hScanGo (mat : Nat → Bool) (m n x i1 i2 minB : Nat) :
    Nat → Nat → Nat → List Block
  | _y, 0, seqLen =>
      emitBlock i1 i2 (m - seqLen) (n - seqLen) seqLen minB false
  | y, r + 1, seqLen =>
      if mat (x + y + n * y) then
        hScanGo mat m n x i1 i2 minB (y + 1) r (seqLen + 1)
      else
        emitBlock i1 i2 (y - seqLen) (x + y - seqLen) seqLen minB false ++
          hScanGo mat m n x i1 i2 minB (y + 1) r 0

/-- Horizontal pass (distinct-file pairs only): columns `x ∈ [1, n)`. -/
def hScan (mat : Nat → Bool) (m n i1 i2 minB : Nat) : List Block :=
  (List.range' 1 (n - 1)).flatMap
    (fun x => hScanGo mat m n x i1 i2 minB 0 (Nat.min m (n - x)) 0)

/-- `process_file_pair` of processor.rs: empty files produce no blocks;
otherwise build the match matrix, compute the effective minimum block
size, run the vertical pass over all rows, and for distinct files also the
horizontal pass; blocks are pushed in that order. -/
def process_file_pair (source1 source2 : SourceFile)
    (source1_idx source2_idx : Nat) (cfg : Config) : List Block :=
  let m := source1.num_lines
  let n := source2.num_lines
  if m = 0 ∨ n = 0 then []
  else
    let mat := buildMatrix source1.source_lines source2.source_lines
    let min_block_size := calc_min_block_size cfg m n
    let is_same_file := source1_idx == source2_idx
    vScan mat m n source1_idx source2_idx min_block_size is_same_file ++
      (if is_same_file then []
       else hScan mat m n source1_idx source2_idx min_block_size)

/-! ## Line validation and the fallback cleaner
(src/filetype/mod.rs, src/filetype/unknown.rs) -/

/-- `char::is_whitespace` of the Rust standard library: the Unicode
White_Space property (a fixed table). -/
def rustIsWhitespace (c : Char) : Bool :=
  let v := c.toNat
  (0x09 ≤ v && v ≤ 0x0D) || v == 0x20 || v == 0x85 || v == 0xA0 || v == 0x1680 ||
    (0x2000 ≤ v && v ≤ 0x200A) || v == 0x2028 || v == 0x2029 || v == 0x202F ||
    v == 0x205F || v == 0x3000

/-- `str::trim_start`: drop leading whitespace. -/
def trimStart (s : List Char) : List Char :=
  s.dropWhile rustIsWhitespace

/-- `str::trim_end`: drop trailing whitespace. -/
def trimEnd (s : List Char) : List Char :=
  (s.reverse.dropWhile rustIsWhitespace).reverse

/-- `str::trim`: drop leading and trailing whitespace. -/
def strTrim (s : List Char) : List Char :=
  trimEnd (trimStart s)

/-- `is_valid_line` of filetype/mod.rs.  `alpha` is the abstract model of
`char::is_alphabetic` (a Unicode table of the Rust standard library).
Note that the length check is `trimmed.len() < min_chars`, i.e. the UTF-8
byte length of the trimmed text, which still counts interior whitespace. -/
def is_valid_line (alpha : Char → Bool) (line : List Char) (min_chars : Nat) : Bool :=
  let trimmed := strTrim line
  if (strBytes trimmed).length < min_chars then false
  else trimmed.any alpha

/-- `clean_whitespace` of filetype/mod.rs: `line.trim().to_string()`. -/
def clean_whitespace (line : List Char) : List Char :=
  strTrim line

/-- `UnknownFileType::get_cleaned_source_lines` of filetype/unknown.rs:
trim each raw line, drop empty lines, keep lines passing `is_valid_line`,
numbering from 1. -/
def unknown_get_cleaned_source_lines (alpha : Char → Bool) (min_chars : Nat)
    (lines : List (List Char)) : List SourceLine :=
  lines.enum.flatMap
    (fun p =>
      let cleaned := clean_whitespace p.2
      if cleaned.isEmpty then []
      else if is_valid_line alpha cleaned min_chars then
        [SourceLine.new cleaned (p.1 + 1)]
      else [])

/-! ## Inverted index (src/core/processor.rs, lines 165-188) -/

/-- `index.entry(hash).or_default().push(file_idx)`: the `HashMap<u32,
Vec<usize>>` is modelled as its lookup function. -/
def idxUpdate (idx : Nat → List Nat) (key file_idx : Nat) : Nat → List Nat :=
  fun h => if h = key then idx key ++ [file_idx] else idx h

/-- Index every line hash of one file. -/
def indexLines (file_idx : Nat) : List SourceLine → (Nat → List Nat) → (Nat → List Nat)
  | [], idx => idx
  | l :: rest, idx => indexLines file_idx rest (idxUpdate idx l.hash file_idx)

/-- Index the files `fs`, numbering them from `start`. -/
def indexFilesFrom : Nat → List SourceFile → (Nat → List Nat) → (Nat → List Nat)
  | _, [], idx => idx
  | start, sf :: rest, idx =>
      indexFilesFrom (start + 1) rest (indexLines start sf.source_lines idx)

/-- `build_hash_index` of processor.rs. -/
def build_hash_index (source_files : List SourceFile) : Nat → List Nat :=
  indexFilesFrom 0 source_files (fun _ => [])

/-- `get_matching_files` of processor.rs: the `HashSet<usize>` produced by
extending with `hash_index[line.hash]` for every line is modelled by its
membership predicate (`matching.contains(&j)`). -/
def get_matching_files (source_file : SourceFile) (hash_index : Nat → List Nat) :
    Nat → Bool :=
  fun j => source_file.source_lines.any (fun l => (hash_index l.hash).contains j)

/-! ## Scheduler (src/core/processor.rs, lines 373-416) -/

instance : Inhabited SourceLine := ⟨SourceLine.new [] 0⟩

instance : Inhabited SourceFile := ⟨⟨[], []⟩⟩

/-- `SourceFile::basename` (`Path::file_name`): the component after the
last `/`, or the whole filename when there is none.  (`Path::file_name`
edge cases — trailing slashes, `..` — are irrelevant here: no claim
depends on the basename's exact value.) -/
def SourceFile.basename (sf : SourceFile) : List Char :=
  ((sf.filename.splitOn '/').getLastD sf.filename)

/-- `SourceFile::has_same_basename`. -/
def SourceFile.has_same_basename (sf other : SourceFile) : Bool :=
  sf.basename == other.basename

/-- One parallel task of `process_files_with_cache` (the closure mapped
over `0..files_to_check`): compare file `i` with itself, then with every
subsequent file `j` that is not skipped by the same-filename flag and that
shares at least one line hash (`matching.contains(&j)`). -/
def processTask (source_files : List SourceFile) (hash_index : Nat → List Nat)
    (cfg : Config) (i : Nat) : List Block :=
  let source1 := source_files.getD i default
  let matching := get_matching_files source1 hash_index
  process_file_pair source1 source1 i i cfg ++
    (source_files.enum.drop (i + 1)).flatMap
      (fun p =>
        if cfg.ignore_same_filename && source1.has_same_basename p.2 then []
        else if !(matching p.1) then []
        else process_file_pair source1 p.2 i p.1 cfg)

/-- The same task with the inverted-index pruning test removed: the match
engine runs on every non-skipped pair.  This definition follows the
claim's words ("running the match engine on every pair") and exists only
to be compared with `processTask`. -/
def processTaskAllPairs (source_files : List SourceFile) (cfg : Config) (i : Nat) :
    List Block :=
  let source1 := source_files.getD i default
  process_file_pair source1 source1 i i cfg ++
    (source_files.enum.drop (i + 1)).flatMap
      (fun p =>
        if cfg.ignore_same_filename && source1.has_same_basename p.2 then []
        else process_file_pair source1 p.2 i p.1 cfg)

/-- The detection phase of `process_files_with_cache` on loaded files:
tasks `0..files_to_check`, results concatenated in task order (rayon's
indexed `par_iter().collect()` preserves index order). -/
def detectBlocks (source_files : List SourceFile) (cfg : Config)
    (files_to_check : Nat) : List Block :=
  ((List.range files_to_check).map
      (processTask source_files (build_hash_index source_files) cfg)).flatten

/-- The detection phase without index pruning, for comparison. -/
def detectBlocksAllPairs (source_files : List SourceFile) (cfg : Config)
    (files_to_check : Nat) : List Block :=
  ((List.range files_to_check).map (processTaskAllPairs source_files cfg)).flatten

/-! ## Errors (src/error.rs) -/

/-- The `DuploError` variants reachable from the components embedded here. -/
inductive DuploError where
  | FileNotFound (path reason : List Char)
  | FileTooLarge (path : List Char) (lines threads max_lines : Nat)
  | CacheError (msg : List Char)
  | Other (msg : List Char)
deriving DecidableEq, Repr

/-! ## Incremental cache (src/cache/storage.rs)

The filesystem is modelled explicitly: `fs` maps a source path to its raw
bytes (`none` = unreadable), and the cache directory is a store mapping
the `DefaultHasher` value of the source path (the hash from which the
16-hex-digit `.cache` filename is formatted, injectively for a fixed
cache directory) to the cache file's parsed content.  A stored value
`some none` is a cache file that exists but fails `File::open` /
`serde_json::from_reader` (the two `.ok()?` sites); `none` is an absent
file.  `FileCache::get` takes `&self` and performs no filesystem writes,
so it returns the store unchanged in every branch. -/

/-- The abstract model of `std::collections::hash_map::DefaultHasher`
(SipHash with fixed keys, Rust standard library): one function per fed
type. -/
structure Hashers where
  bytes : List Nat → Nat
  str : List Char → Nat
  u32 : Nat → Nat

/-- `CACHE_VERSION` of cache/storage.rs. -/
def CACHE_VERSION : Nat := 1

/-- `CachedLine` of cache/storage.rs. -/
structure CachedLine where
  line : List Char
  line_number : Nat
  hash : Nat
deriving DecidableEq, Repr

/-- `CacheEntry` of cache/storage.rs. -/
structure CacheEntry where
  version : Nat
  content_hash : Nat
  config_hash : Nat
  lines : List CachedLine
deriving DecidableEq, Repr

/-- The persistent state of `FileCache` (`cache_dir` only prefixes the
per-file path; files are keyed here directly by the path hash). -/
structure FileCache where
  config_hash : Nat
deriving DecidableEq, Repr

/-- `FileCache::new`: the config hash is `Config::cleaning_config_hash`. -/
def FileCache.new (H : Hashers) (cfg : Config) : FileCache :=
  { config_hash := Config.cleaning_config_hash H.u32 cfg }

/-- `FileCache::cache_path`: the store key is the `DefaultHasher` value of
the source path (the `{:016x}.cache` filename is formatted from it
injectively). -/
def cachePathKey (H : Hashers) (source_path : List Char) : Nat :=
  H.str source_path

/-- `FileCache::compute_content_hash`: `DefaultHasher` over the raw file
bytes; `none` when `fs::read` fails. -/
def compute_content_hash (H : Hashers) (fs : List Char → Option (List Nat))
    (path : List Char) : Option Nat :=
  (fs path).map H.bytes

/-- Modelled from the spec: `SourceLine::from_cached`, called by
`FileCache::get`, is not present under src/ (source_line.rs only defines
`SourceLine::new`).  Per the spec's cache contract ("Store then load
yields the original cleaned-line sequence"; the entry stores the sequence
`(text, original line number, line hash)`), it reconstructs a
`SourceLine` from the three stored fields. -/
def SourceLine.from_cached (line : List Char) (line_number : Nat) (hash : Nat) :
    SourceLine :=
  { line := line, line_number := line_number, hash := hash }

/-- `FileCache::get`: validate version, config hash and content hash; any
failure yields `None`.  No branch writes to the store. -/
def FileCache.get (H : Hashers) (c : FileCache)
    (fs : List Char → Option (List Nat))
    (store : Nat → Option (Option CacheEntry)) (source_path : List Char) :
    Option (List SourceLine) × (Nat → Option (Option CacheEntry)) :=
  match store (cachePathKey H source_path) with
  | none => (none, store)
  | some none => (none, store)
  | some (some entry) =>
      if entry.version ≠ CACHE_VERSION then (none, store)
      else if entry.config_hash ≠ c.config_hash then (none, store)
      else
        match compute_content_hash H fs source_path with
        | none => (none, store)
        | some current_hash =>
            if entry.content_hash ≠ current_hash then (none, store)
            else
              (some (entry.lines.map
                  (fun cl => SourceLine.from_cached cl.line cl.line_number cl.hash)),
                store)

/-- `FileCache::put`: hash the raw bytes (propagating a read failure as an
error), then write the entry.  `File::create` / serde write failures are
filesystem faults outside the model and are modelled as success. -/
def FileCache.put (H : Hashers) (c : FileCache)
    (fs : List Char → Option (List Nat))
    (store : Nat → Option (Option CacheEntry)) (source_path : List Char)
    (lines : List SourceLine) :
    Except DuploError Unit × (Nat → Option (Option CacheEntry)) :=
  match compute_content_hash H fs source_path with
  | none => (Except.error (DuploError.FileNotFound source_path []), store)
  | some content_hash =>
      let entry : CacheEntry :=
        { version := CACHE_VERSION, content_hash := content_hash,
          config_hash := c.config_hash,
          lines := lines.map (fun sl => CachedLine.mk sl.line sl.line_number sl.hash) }
      (Except.ok (),
        fun k => if k = cachePathKey H source_path then some (some entry) else store k)

/-! ## Baseline (src/baseline/storage.rs) -/

/-- `BASELINE_VERSION` of baseline/storage.rs. -/
def BASELINE_VERSION : Nat := 1

/-- `String` comparison `file1 <= file2` (Rust `Ord` on `String` is
lexicographic on UTF-8 bytes, which coincides with lexicographic order on
code points). -/
def strLe : List Char → List Char → Bool
  | [], _ => true
  | _ :: _, [] => false
  | a :: s, b :: t =>
      if a.toNat < b.toNat then true
      else if b.toNat < a.toNat then false
      else strLe s t

/-- `BaselineEntry` of baseline/storage.rs. -/
structure BaselineEntry where
  file1 : List Char
  file2 : List Char
  content_hash : Nat
  line_count : Nat
deriving DecidableEq, Repr

/-- `BaselineEntry::new`: the two paths are sorted before storing. -/
def BaselineEntry.new (file1 file2 : List Char) (content_hash line_count : Nat) :
    BaselineEntry :=
  if strLe file1 file2 then
    { file1 := file1, file2 := file2, content_hash := content_hash,
      line_count := line_count }
  else
    { file1 := file2, file2 := file1, content_hash := content_hash,
      line_count := line_count }

/-- `DuploResult` of processor.rs. -/
structure DuploResult where
  blocks : List Block
  files_analyzed : Nat
  total_lines : Nat
  duplicate_lines : Nat
  duplicate_blocks : Nat
deriving DecidableEq, Repr

/-- `Baseline` of baseline/storage.rs. -/
structure Baseline where
  version : Nat
  config_hash : Nat
  entries : List BaselineEntry
deriving DecidableEq, Repr

/-- `compute_block_hash` of baseline/storage.rs: feed the `count` line
hashes of the block (taken from `source1`) to `DefaultHasher`, modelled as
the abstract function `H.hashSeq` over the fed sequence. -/
def compute_block_hash (hashSeq : List Nat → Nat) (block : Block)
    (source_files : List SourceFile) : Nat :=
  let source := source_files.getD block.source1_idx default
  hashSeq ((List.range block.count).map (fun i => (source.get_line (block.line1 + i)).hash))

/-- `Baseline::from_results`: one entry per block of the result. -/
def Baseline.from_results (hashSeq : List Nat → Nat) (result : DuploResult)
    (source_files : List SourceFile) (config_hash : Nat) : Baseline :=
  { version := BASELINE_VERSION, config_hash := config_hash,
    entries := result.blocks.map
      (fun block =>
        BaselineEntry.new (source_files.getD block.source1_idx default).filename
          (source_files.getD block.source2_idx default).filename
          (compute_block_hash hashSeq block source_files) block.count) }

/-- `Baseline::contains`: recompute the block's file pair (normalized in
the same order) and content hash, and look for a matching entry. -/
def Baseline.contains (hashSeq : List Nat → Nat) (b : Baseline) (block : Block)
    (source_files : List SourceFile) : Bool :=
  let file1 := (source_files.getD block.source1_idx default).filename
  let file2 := (source_files.getD block.source2_idx default).filename
  let content_hash := compute_block_hash hashSeq block source_files
  let sorted := if strLe file1 file2 then (file1, file2) else (file2, file1)
  b.entries.any
    (fun entry =>
      entry.file1 == sorted.1 && entry.file2 == sorted.2 &&
        entry.content_hash == content_hash)

/-- `Baseline::filter_new_duplicates`: drop known blocks and recompute the
summary counters over the survivors. -/
def Baseline.filter_new_duplicates (hashSeq : List Nat → Nat) (b : Baseline)
    (result : DuploResult) (source_files : List SourceFile) : DuploResult :=
  let new_blocks := result.blocks.filter
    (fun block => !(Baseline.contains hashSeq b block source_files))
  { blocks := new_blocks,
    files_analyzed := result.files_analyzed,
    total_lines := result.total_lines,
    duplicate_lines := (new_blocks.map Block.count).sum,
    duplicate_blocks := new_blocks.length }

/-! ## Loader and pipeline (src/core/processor.rs, lines 88-162, 335-429) -/

/-- `MAX_BITS_PER_THREAD` of `load_source_files_with_cache` (~1 GB of
matrix bits). -/
def MAX_BITS_PER_THREAD : Nat := 8000000000

/-- Modelled from the spec: `SourceFile::from_cached_lines`, called by the
loader, is not present under src/.  Per the spec's loader contract it
rebuilds the `SourceFile` from the path and the cached cleaned lines. -/
def SourceFile.from_cached_lines (path : List Char) (lines : List SourceLine) :
    SourceFile :=
  { filename := path, source_lines := lines }

/-- The per-path loop of `load_source_files_with_cache`, threading
`(source_files, max_lines, cache_hits, cache store)`.  `loadFn` is the
spec-modelled `SourceFile::load` (see `process_files_with_cache` below):
it yields the cleaned lines for a path, or `none` for an unreadable path
(which the loader warns about and skips). -/
def loadFold (loadFn : List Char → Nat → Option (List SourceLine)) (H : Hashers)
    (fs : List Char → Option (List Nat)) (cfg : Config)
    (cache : Option FileCache) :
    List (List Char) →
      List SourceFile × Nat × Nat × (Nat → Option (Option CacheEntry)) →
      List SourceFile × Nat × Nat × (Nat → Option (Option CacheEntry))
  | [], st => st
  | path :: rest, (source_files, max_lines, cache_hits, store) =>
      match cache with
      | some c =>
          match (FileCache.get H c fs store path).1 with
          | some lines =>
              let sf := SourceFile.from_cached_lines path lines
              if 0 < sf.num_lines then
                loadFold loadFn H fs cfg cache rest
                  (source_files ++ [sf], Nat.max max_lines sf.num_lines,
                    cache_hits + 1, store)
              else loadFold loadFn H fs cfg cache rest
                (source_files, max_lines, cache_hits, store)
          | none =>
              match loadFn path cfg.min_chars with
              | some lines =>
                  let sf : SourceFile := { filename := path, source_lines := lines }
                  if 0 < sf.num_lines then
                    -- cache.put: a failure only emits a warning and leaves the
                    -- store unchanged, which is exactly what `put` returns then
                    loadFold loadFn H fs cfg cache rest
                      (source_files ++ [sf], Nat.max max_lines sf.num_lines,
                        cache_hits, (FileCache.put H c fs store path sf.source_lines).2)
                  else loadFold loadFn H fs cfg cache rest
                    (source_files, max_lines, cache_hits, store)
              | none => loadFold loadFn H fs cfg cache rest
                  (source_files, max_lines, cache_hits, store)
      | none =>
          match loadFn path cfg.min_chars with
          | some lines =>
              let sf : SourceFile := { filename := path, source_lines := lines }
              if 0 < sf.num_lines then
                loadFold loadFn H fs cfg cache rest
                  (source_files ++ [sf], Nat.max max_lines sf.num_lines,
                    cache_hits, store)
              else loadFold loadFn H fs cfg cache rest
                (source_files, max_lines, cache_hits, store)
          | none => loadFold loadFn H fs cfg cache rest
              (source_files, max_lines, cache_hits, store)

/-- `load_source_files_with_cache`: run the per-path loop, then enforce the
matrix-memory ceiling.  The offending file reported is the first one (in
load order) reaching the maximal line count: `sort_by_key(Reverse(num_lines))`
is stable, so `sorted[0]` is that file.  `((max/threads) as f64).sqrt() as
usize` is modelled as `Nat.sqrt` (the value is only an error-message
payload; no claim depends on it). -/
def load_source_files_with_cache (loadFn : List Char → Nat → Option (List SourceLine))
    (H : Hashers) (fs : List Char → Option (List Nat)) (file_list : List (List Char))
    (cfg : Config) (cache : Option FileCache)
    (store : Nat → Option (Option CacheEntry)) :
    Except DuploError (List SourceFile × Nat) × (Nat → Option (Option CacheEntry)) :=
  let st := loadFold loadFn H fs cfg cache file_list ([], 0, 0, store)
  let source_files := st.1
  let max_lines := st.2.1
  let store1 := st.2.2.2
  if MAX_BITS_PER_THREAD < max_lines * max_lines then
    (Except.error
        (DuploError.FileTooLarge
          ((source_files.find? (fun f => f.num_lines = max_lines)).getD default).filename
          max_lines cfg.num_threads
          (Nat.sqrt (MAX_BITS_PER_THREAD / cfg.num_threads))),
      store1)
  else (Except.ok (source_files, max_lines), store1)

/-- `process_files_with_cache` of processor.rs.

`loadFn` stands for `SourceFile::load(path, min_chars)`: processor.rs
calls a two-argument `SourceFile::load`, which is not present under src/
(source_file.rs defines a different-arity variant), so it is modelled
from the spec as an arbitrary function from path and `min_chars` to
cleaned lines (`none` = unreadable path, warned and skipped).

The rayon pool built with `num_threads` runs one task per outer index
`i ∈ [0, files_to_check)`; the tasks are independent pure functions of
frozen data and `par_iter().collect()` preserves index order, so the pool
is modelled by a sequential map (`ThreadPoolBuilder::build` failures are
OS faults outside the model). -/
def process_files_with_cache (loadFn : List Char → Nat → Option (List SourceLine))
    (H : Hashers) (fs : List Char → Option (List Nat)) (file_list : List (List Char))
    (cfg : Config) (cache : Option FileCache)
    (store : Nat → Option (Option CacheEntry)) :
    Except DuploError (DuploResult × List SourceFile) ×
      (Nat → Option (Option CacheEntry)) :=
  match load_source_files_with_cache loadFn H fs file_list cfg cache store with
  | (Except.error e, store1) => (Except.error e, store1)
  | (Except.ok (source_files, _max_lines), store1) =>
      if source_files.isEmpty then
        (Except.ok
            ({ blocks := [], files_analyzed := 0, total_lines := 0,
               duplicate_lines := 0, duplicate_blocks := 0 }, source_files),
          store1)
      else
        let files_to_check :=
          Nat.min cfg.effective_files_to_check source_files.length
        let all_blocks := detectBlocks source_files cfg files_to_check
        (Except.ok
            ({ blocks := all_blocks,
               files_analyzed := files_to_check,
               total_lines := (source_files.map SourceFile.num_lines).sum,
               duplicate_lines := (all_blocks.map Block.count).sum,
               duplicate_blocks := all_blocks.length }, source_files),
          store1)

/-- The observable blocks of a pipeline outcome: `none` when the run
failed, the block list when it succeeded. -/
def resultBlocks
    (r : Except DuploError (DuploResult × List SourceFile) ×
      (Nat → Option (Option CacheEntry))) : Option (List Block) :=
  r.1.toOption.map (fun p => p.1.blocks)

/-! ## Concrete instances used by the claim evaluations and witnesses -/

/-- A concrete instantiation of the abstract `DefaultHasher` model, used
by witnesses (any function family will do). -/
def concreteHashers : Hashers :=
  { bytes := List.sum, str := List.length, u32 := id }

/-- Six cleaned lines with pairwise distinct hashes. -/
def c1_file1 : SourceFile :=
  { filename := "f1.c".toList,
    source_lines :=
      [SourceLine.new "aaa".toList 1, SourceLine.new "bbb".toList 2,
       SourceLine.new "ccc".toList 3, SourceLine.new "ddd".toList 4,
       SourceLine.new "eee".toList 5, SourceLine.new "fff".toList 6] }

/-- The first four lines of `c1_file1`. -/
def c1_file2 : SourceFile :=
  { filename := "f2.c".toList,
    source_lines :=
      [SourceLine.new "aaa".toList 1, SourceLine.new "bbb".toList 2,
       SourceLine.new "ccc".toList 3, SourceLine.new "ddd".toList 4] }

/-- Default detection configuration (min-block-size 4). -/
def c1_cfg : Config := Config.mk 3 4 100 0 1 false

/-- Six lines whose first differs from `c3_file2`'s first but whose third
equals it. -/
def c3_file1 : SourceFile :=
  { filename := "f1.c".toList,
    source_lines :=
      [SourceLine.new "ppp".toList 1, SourceLine.new "bbb".toList 2,
       SourceLine.new "ccc".toList 3, SourceLine.new "ddd".toList 4,
       SourceLine.new "eee".toList 5, SourceLine.new "fff".toList 6] }

/-- Four lines starting with the text of `c3_file1`'s third line. -/
def c3_file2 : SourceFile :=
  { filename := "f2.c".toList,
    source_lines :=
      [SourceLine.new "ccc".toList 1, SourceLine.new "bbb".toList 2,
       SourceLine.new "ccc".toList 3, SourceLine.new "ddd".toList 4] }

/-- Detection configuration with min-block-size 3. -/
def c3_cfg : Config := Config.mk 3 3 100 0 1 false

/-- The raw line of C7's failing input: three bytes, but only two
non-whitespace characters. -/
def c7_line : List Char := ['a', ' ', 'b']

/-- Two one-line files with equal line hashes, for the C4 witness. -/
def c4_files : List SourceFile :=
  [{ filename := "a.c".toList, source_lines := [SourceLine.new "aaa".toList 1] },
   { filename := "b.c".toList, source_lines := [SourceLine.new "aaa".toList 1] }]

/-- A one-block result over `c4_files`, for the C4 witness. -/
def c4_result : DuploResult :=
  { blocks := [Block.new 0 1 0 0 1], files_analyzed := 2, total_lines := 2,
    duplicate_lines := 1, duplicate_blocks := 1 }

/-- A cache store holding a single unparsable-version entry under every
key, for the C9 counterexample. -/
def c9_entry : CacheEntry :=
  { version := 2, content_hash := 0, config_hash := 0, lines := [] }

/-- The store containing `c9_entry` everywhere. -/
def c9_store : Nat → Option (Option CacheEntry) := fun _ => some (some c9_entry)

end Duplo

namespace Duplo

/-! ## Claim C2 -/

/-- C2: for every config with `min_block_size ≥ 1` and
`block_percent_threshold ∈ [0, 100]` and all line counts `m`, `n`,
`calc_min_block_size` returns exactly `min_block_size`: the formula
`max(B, min(B, t))` always collapses to `B`. -/
theorem calc_min_block_size_eq_min_block_size (cfg : Config) (m n : Nat)
    (hB : 1 ≤ cfg.min_block_size) (hP : cfg.block_percent_threshold ≤ 100) :
    calc_min_block_size cfg m n = cfg.min_block_size := by
  unfold calc_min_block_size
  exact Nat.max_eq_left (Nat.min_le_left _ _)

/-- Witness for C2 at a concrete input: the default configuration
(B = 4, P = 100) on a 100 × 37-line pair. -/
theorem calc_min_block_size_eq_min_block_size_witness :
    1 ≤ (Config.mk 3 4 100 0 1 false).min_block_size ∧
      (Config.mk 3 4 100 0 1 false).block_percent_threshold ≤ 100 ∧
      calc_min_block_size (Config.mk 3 4 100 0 1 false) 100 37 = 4 :=
  ⟨by decide, by decide,
    calc_min_block_size_eq_min_block_size (Config.mk 3 4 100 0 1 false) 100 37
      (by decide) (by decide)⟩

/-! ## Claim C1 (code evaluation at the failing input)

On the pair `c1_file1` (6 lines) / `c1_file2` (its first 4 lines) with the
default configuration, the vertical diagonal starting at row 0 matches for
its whole length and ends at the matrix's right edge (`max_x = n = 4 <
m - y = 6`).  The end-of-diagonal emission then computes
`line1 = m - seq_len = 2` instead of the run's actual start row 0, so the
emitted block claims that lines 2..5 of file 1 equal lines 0..3 of file 2,
which is false: the claimed per-line hash equality fails already at
`k = 0`. -/

/-- C1: the block emitted for `(c1_file1, c1_file2)` is exactly
`(source1_idx 0, source2_idx 1, line1 2, line2 0, count 4)`; the effective
minimum is 4, yet the hash of file 1's line `line1 + 0` differs from the
hash of file 2's line `line2 + 0`, violating the claimed block validity. -/
theorem process_file_pair_block_validity_violation :
    process_file_pair c1_file1 c1_file2 0 1 c1_cfg = [Block.new 0 1 2 0 4] ∧
      calc_min_block_size c1_cfg c1_file1.num_lines c1_file2.num_lines = 4 ∧
      (c1_file1.get_line (2 + 0)).hash ≠ (c1_file2.get_line (0 + 0)).hash := by
  refine ⟨by decide, by decide, by decide⟩

/-! ## Claim C3 (code evaluation at the failing input)

On the pair `c3_file1` / `c3_file2` with min-block-size 3, the vertical
diagonal starting at row 0 breaks at cell (0,0) and then matches for cells
(1,1), (2,2), (3,3), ending at the right edge.  The end-of-diagonal
emission computes `line1 = m - seq_len = 3` instead of the run's actual
start row 1, producing the block `(line1 3, line2 1, count 3)` whose
preceding lines (`line1 - 1 = 2` in file 1, `line2 - 1 = 0` in file 2)
have **equal** hashes — the emitted block is not maximal at its start. -/

/-- C3: the block emitted for `(c3_file1, c3_file2)` is exactly
`(0, 1, line1 3, line2 1, count 3)` with `line1 ≠ 0` and `line2 ≠ 0`, and
the line hashes at `line1 - 1` and `line2 - 1` are equal, violating the
claimed diagonal maximality. -/
theorem process_file_pair_maximality_violation :
    process_file_pair c3_file1 c3_file2 0 1 c3_cfg = [Block.new 0 1 3 1 3] ∧
      ((3 : Nat) ≠ 0 ∧ (1 : Nat) ≠ 0) ∧
      (c3_file1.get_line (3 - 1)).hash = (c3_file2.get_line (1 - 1)).hash := by
  refine ⟨by decide, by decide, by decide⟩

/-! ## Claim C7 (code evaluation at the failing input)

`is_valid_line` compares `min_chars` against `trimmed.len()`, the UTF-8
byte length of the trimmed text, which still counts interior whitespace —
not against the number of non-whitespace characters.  The raw line
`"a b"` has only 2 non-whitespace characters, yet with `min_chars = 3`
the fallback cleaner emits it (its trimmed byte length is 3). -/

/-- C7: the fallback cleaner with `min_chars = 3` emits the line `"a b"`
even though it contains only 2 non-whitespace characters (2 < 3), so a
line the claim says must be dropped is kept.  `Char.isAlpha` instantiates
the abstract `char::is_alphabetic` (the input is ASCII). -/
theorem unknown_cleaner_keeps_line_with_two_nonws_chars :
    unknown_get_cleaned_source_lines (fun c => c.isAlpha) 3 [c7_line] =
        [SourceLine.new c7_line 1] ∧
      (c7_line.filter (fun c => !(rustIsWhitespace c))).length = 2 ∧ 2 < 3 := by
  refine ⟨by decide, by decide, by decide⟩

/-! ## Claim C5 -/

/-- C5: `hash_line` depends only on the bytes above 32 (stripping bytes
`<= 32` from two strings into the same sequence gives equal hashes); a
string whose bytes are all `<= 32` hashes to the offset basis 2166136261;
and the hash is the FNV-1a fold with offset basis 2166136261 and prime
16777619, multiplied modulo `2 ^ 32`. -/
theorem hash_line_stability (s1 s2 s3 : List Char)
    (h : (strBytes s1).filter (fun b => 32 < b) = (strBytes s2).filter (fun b => 32 < b))
    (h3 : ∀ b ∈ strBytes s3, b ≤ 32) :
    hash_line s1 = hash_line s2 ∧
      hash_line s3 = 2166136261 ∧
      hash_line s1 =
        ((strBytes s1).filter (fun b => 32 < b)).foldl
          (fun hsh b => ((hsh ^^^ b) * 16777619) % 2 ^ 32) 2166136261 := by
  refine ⟨?_, ?_, rfl⟩
  · unfold hash_line
    rw [h]
  · unfold hash_line
    have hnil : (strBytes s3).filter (fun b => 32 < b) = [] := by
      rw [List.filter_eq_nil_iff]
      intro b hb
      simpa using Nat.not_lt.mpr (h3 b hb)
    rw [hnil]
    rfl

/-- Witness for C5: `"a b"` and `" ab "` strip to the same byte sequence
and hash equal; the two-space string hashes to the offset basis. -/
theorem hash_line_stability_witness :
    hash_line "a b".toList = hash_line " ab ".toList ∧
      hash_line "  ".toList = 2166136261 ∧
      hash_line "a b".toList =
        ((strBytes "a b".toList).filter (fun b => 32 < b)).foldl
          (fun hsh b => ((hsh ^^^ b) * 16777619) % 2 ^ 32) 2166136261 :=
  hash_line_stability "a b".toList " ab ".toList "  ".toList (by decide) (by decide)

/-! ## Claim C9 -/

/-- C9 counterexample: a cache store whose entry under the looked-up key
has format version 2 (≠ `CACHE_VERSION`).  `FileCache::get` returns
`None`, but the invalid cache file is **not** deleted: after the call the
store still holds the entry under the same key.  (`get` takes `&self` and
performs no filesystem write in any branch.) -/
theorem cache_get_leaves_invalid_file_on_disk :
    (FileCache.get concreteHashers ⟨0⟩ (fun _ => none) c9_store ['p']).1 = none ∧
      (FileCache.get concreteHashers ⟨0⟩ (fun _ => none) c9_store ['p']).2
          (cachePathKey concreteHashers ['p']) = some (some c9_entry) :=
  ⟨rfl, rfl⟩

/-- C9 (amended): when the entry under the cache key fails any validation
(open/parse failure, version mismatch, cleaning-config-hash mismatch,
source read failure, or content-hash mismatch), `FileCache::get` returns
`None` — the entry is treated as absent — and the cache store is left
unchanged (the invalid file is not deleted). -/
theorem cache_get_invalid_returns_none_keeps_store (H : Hashers) (c : FileCache)
    (fs : List Char → Option (List Nat))
    (store : Nat → Option (Option CacheEntry)) (path : List Char)
    (hinvalid : store (cachePathKey H path) = some none ∨
      ∃ entry, store (cachePathKey H path) = some (some entry) ∧
        (entry.version ≠ CACHE_VERSION ∨
         entry.config_hash ≠ c.config_hash ∨
         compute_content_hash H fs path = none ∨
         ∃ cur, compute_content_hash H fs path = some cur ∧
           entry.content_hash ≠ cur)) :
    FileCache.get H c fs store path = (none, store) := by
  unfold FileCache.get
  rcases hinvalid with h | ⟨entry, he, hfail⟩
  · rw [h]
  · rw [he]
    rcases hfail with hv | hc | hnone | ⟨cur, hcur, hne⟩
    · simp [hv]
    · by_cases hv : entry.version ≠ CACHE_VERSION
      · simp [hv]
      · simp [hv, hc]
    · by_cases hv : entry.version ≠ CACHE_VERSION
      · simp [hv]
      · by_cases hc : entry.config_hash ≠ c.config_hash
        · simp [hv, hc]
        · simp [hv, hc, hnone]
    · by_cases hv : entry.version ≠ CACHE_VERSION
      · simp [hv]
      · by_cases hc : entry.config_hash ≠ c.config_hash
        · simp [hv, hc]
        · simp [hv, hc, hcur, hne]

/-- Witness for C9 (amended) at a concrete input: the version-2 entry of
`c9_store`. -/
theorem cache_get_invalid_returns_none_keeps_store_witness :
    FileCache.get concreteHashers ⟨0⟩ (fun _ => none) c9_store ['q'] =
      (none, c9_store) :=
  cache_get_invalid_returns_none_keeps_store concreteHashers ⟨0⟩ (fun _ => none)
    c9_store ['q'] (Or.inr ⟨c9_entry, rfl, Or.inl (by decide)⟩)

/-! ## Claim C4 -/

/-- C4: building a baseline from a result `R` (over in-bounds blocks) and
filtering `R` against it removes every block: the surviving block vector
is empty.  `hashSeq` is the abstract `DefaultHasher` over the fed line
hashes; the result holds for any deterministic hasher. -/
theorem baseline_from_results_filters_everything (hashSeq : List Nat → Nat)
    (R : DuploResult) (S : List SourceFile) (config_hash : Nat)
    (hwf : ∀ b ∈ R.blocks, b.source1_idx < S.length ∧ b.source2_idx < S.length ∧
      b.line1 + b.count ≤ (S.getD b.source1_idx default).num_lines) :
    ((Baseline.from_results hashSeq R S config_hash).filter_new_duplicates hashSeq
        R S).blocks = [] := by
  have hall : ∀ b ∈ R.blocks,
      Baseline.contains hashSeq (Baseline.from_results hashSeq R S config_hash)
        b S = true := by
    intro b hb
    unfold Baseline.contains
    rw [List.any_eq_true]
    refine ⟨BaselineEntry.new (S.getD b.source1_idx default).filename
        (S.getD b.source2_idx default).filename
        (compute_block_hash hashSeq b S) b.count, ?_, ?_⟩
    · exact List.mem_map_of_mem _ hb
    · simp only [BaselineEntry.new]
      split_ifs with hle <;> simp
  unfold Baseline.filter_new_duplicates
  simp only []
  rw [List.filter_eq_nil_iff]
  intro b hb
  simp [hall b hb]

/-- Witness for C4: the one-block result `c4_result` over `c4_files`,
with the list-sum hasher. -/
theorem baseline_from_results_filters_everything_witness :
    ((Baseline.from_results List.sum c4_result c4_files 7).filter_new_duplicates
        List.sum c4_result c4_files).blocks = [] :=
  baseline_from_results_filters_everything List.sum c4_result c4_files 7
    (by decide)

/-! ## Claim C6 -/

/-- Round-tripping a `SourceLine` through `CachedLine` and
`SourceLine::from_cached` is the identity (all three fields are stored). -/
theorem from_cached_roundtrip (sl : SourceLine) :
    SourceLine.from_cached sl.line sl.line_number sl.hash = sl :=
  rfl

/-- C6: after a successful `FileCache::put` (readable source file),
(a) `get` with the same file content and config returns exactly the stored
line sequence (text, original line number and hash all preserved);
(b) if the raw bytes change (so their `DefaultHasher` value changes),
`get` returns `None`;
(c) if `min_chars` changes (changing the cleaning-config hash), `get`
returns `None`;
(d) changing `min_block_size`, `block_percent_threshold` or
`ignore_same_filename` leaves the cleaning-config hash unchanged and `get`
still returns the stored sequence. -/
theorem cache_roundtrip_and_selective_invalidation (H : Hashers)
    (fs fs2 : List Char → Option (List Nat))
    (store : Nat → Option (Option CacheEntry)) (path : List Char)
    (bytes bytes2 : List Nat) (lines : List SourceLine) (cfg cfg2 : Config)
    (B P : Nat) (flag : Bool)
    (hfs : fs path = some bytes)
    (hfs2 : fs2 path = some bytes2)
    (hbytes : H.bytes bytes2 ≠ H.bytes bytes)
    (hcfg2 : H.u32 cfg2.min_chars ≠ H.u32 cfg.min_chars) :
    (FileCache.put H (FileCache.new H cfg) fs store path lines).1 =
        Except.ok () ∧
      (FileCache.get H (FileCache.new H cfg) fs
          (FileCache.put H (FileCache.new H cfg) fs store path lines).2 path).1 =
        some lines ∧
      (FileCache.get H (FileCache.new H cfg) fs2
          (FileCache.put H (FileCache.new H cfg) fs store path lines).2 path).1 =
        none ∧
      (FileCache.get H (FileCache.new H cfg2) fs
          (FileCache.put H (FileCache.new H cfg) fs store path lines).2 path).1 =
        none ∧
      Config.cleaning_config_hash H.u32
          { cfg with min_block_size := B, block_percent_threshold := P,
                     ignore_same_filename := flag } =
        Config.cleaning_config_hash H.u32 cfg ∧
      (FileCache.get H
          (FileCache.new H
            { cfg with min_block_size := B, block_percent_threshold := P,
                       ignore_same_filename := flag })
          fs (FileCache.put H (FileCache.new H cfg) fs store path lines).2 path).1 =
        some lines := by
  have hput : FileCache.put H (FileCache.new H cfg) fs store path lines =
      (Except.ok (),
        fun k =>
          if k = cachePathKey H path then
            some (some
              { version := CACHE_VERSION, content_hash := H.bytes bytes,
                config_hash := (FileCache.new H cfg).config_hash,
                lines := lines.map
                  (fun sl => CachedLine.mk sl.line sl.line_number sl.hash) })
          else store k) := by
    unfold FileCache.put compute_content_hash
    rw [hfs]
    rfl
  rw [hput]
  refine ⟨rfl, ?_, ?_, ?_, rfl, ?_⟩
  · unfold FileCache.get compute_content_hash
    simp [CACHE_VERSION, hfs, List.map_map, Function.comp_def,
      from_cached_roundtrip]
  · unfold FileCache.get compute_content_hash
    simp [CACHE_VERSION, hfs2, Ne.symm hbytes]
  · unfold FileCache.get compute_content_hash
    simp [CACHE_VERSION, FileCache.new, Config.cleaning_config_hash,
      Ne.symm hcfg2]
  · unfold FileCache.get compute_content_hash
    simp [CACHE_VERSION, FileCache.new, Config.cleaning_config_hash, hfs,
      List.map_map, Function.comp_def, from_cached_roundtrip]

/-- Witness for C6: a one-byte file under the concrete hasher family, with
`min_chars` 3 vs 5 and detection-field changes (10, 50, true). -/
theorem cache_roundtrip_and_selective_invalidation_witness :
    ((fun p => if p = "x.c".toList then some [65] else none) "x.c".toList =
        some [65]) ∧
      ((fun p => if p = "x.c".toList then some [66] else none) "x.c".toList =
        some [66]) ∧
      concreteHashers.bytes [66] ≠ concreteHashers.bytes [65] ∧
      concreteHashers.u32 (Config.mk 5 4 100 0 1 false).min_chars ≠
        concreteHashers.u32 (Config.mk 3 4 100 0 1 false).min_chars ∧
      (FileCache.put concreteHashers
          (FileCache.new concreteHashers (Config.mk 3 4 100 0 1 false))
          (fun p => if p = "x.c".toList then some [65] else none)
          (fun _ => none) "x.c".toList [SourceLine.new ['a'] 1]).1 =
        Except.ok () := by
  refine ⟨by decide, by decide, by decide, by decide, ?_⟩
  exact (cache_roundtrip_and_selective_invalidation concreteHashers
      (fun p => if p = "x.c".toList then some [65] else none)
      (fun p => if p = "x.c".toList then some [66] else none)
      (fun _ => none) "x.c".toList [65] [66] [SourceLine.new ['a'] 1]
      (Config.mk 3 4 100 0 1 false) (Config.mk 5 4 100 0 1 false)
      10 50 true (by decide) (by decide) (by decide) (by decide)).1

/-! ## Claim C10: helper lemmas -/

/-- If a row's line hash matches no line of file 2, the inner matrix-build
fold is the identity. -/
theorem innerFold_no_match (yl : Nat × SourceLine) (n : Nat)
    (l2 : List (Nat × SourceLine)) (mat : Nat → Bool)
    (h : ∀ p ∈ l2, SourceLine.hashEq yl.2 p.2 = false) :
    l2.foldl
        (fun mat xl =>
          if SourceLine.hashEq yl.2 xl.2 then bitSet mat (xl.1 + n * yl.1) else mat)
        mat = mat := by
  induction l2 generalizing mat with
  | nil => rfl
  | cons p rest ih =>
      rw [List.foldl_cons, h p (List.mem_cons_self _ _)]
      exact ih mat (fun q hq => h q (List.mem_cons_of_mem _ hq))

/-- With no shared line hash, the match matrix stays all-false. -/
theorem buildMatrix_no_match (lines1 lines2 : List SourceLine)
    (h : ∀ l1 ∈ lines1, ∀ l2 ∈ lines2, l1.hash ≠ l2.hash) :
    ∀ k, buildMatrix lines1 lines2 k = false := by
  intro k
  unfold buildMatrix
  have houter : ∀ (l1 : List (Nat × SourceLine)) (mat : Nat → Bool),
      (∀ p ∈ l1, p.2 ∈ lines1) →
      l1.foldl
          (fun mat yl =>
            lines2.enum.foldl
              (fun mat xl =>
                if SourceLine.hashEq yl.2 xl.2 then
                  bitSet mat (xl.1 + lines2.length * yl.1)
                else mat)
              mat)
          mat = mat := by
    intro l1
    induction l1 with
    | nil => intro mat _; rfl
    | cons p rest ih =>
        intro mat hmem
        rw [List.foldl_cons, innerFold_no_match]
        · exact ih mat (fun q hq => hmem q (List.mem_cons_of_mem _ hq))
        · intro q hq
          have hq2 : q.2 ∈ lines2 := by
            have := List.mem_enumFrom hq
            simp only [this.2.2]
            exact List.getElem_mem _
          have hne := h p.2 (hmem p (List.mem_cons_self _ _)) q.2 hq2
          simp [SourceLine.hashEq, hne]
  rw [houter lines1.enum (fun _ => false)
    (fun p hp => by
      have := List.mem_enumFrom hp
      simp only [this.2.2]
      exact List.getElem_mem _)]

/-- On an all-false matrix a vertical scan row emits nothing (the run
length stays 0 and the minimum is positive). -/
theorem vScanGo_all_false (mat : Nat → Bool) (m n y i1 i2 minB : Nat)
    (same : Bool) (hm : ∀ k, mat k = false) (hmin : 1 ≤ minB) :
    ∀ r x, vScanGo mat m n y i1 i2 minB same x r 0 = [] := by
  intro r
  induction r with
  | zero =>
      intro x
      simp [vScanGo, emitBlock, Nat.not_succ_le_zero, Nat.lt_irrefl,
        Nat.le_zero, Nat.one_le_iff_ne_zero.mp hmin]
  | succ r ih =>
      intro x
      rw [vScanGo, hm]
      simp only [Bool.false_eq_true, if_false]
      rw [ih (x + 1)]
      simp [emitBlock, Nat.le_zero, Nat.one_le_iff_ne_zero.mp hmin]

/-- On an all-false matrix a horizontal scan column emits nothing. -/
theorem hScanGo_all_false (mat : Nat → Bool) (m n x i1 i2 minB : Nat)
    (hm : ∀ k, mat k = false) (hmin : 1 ≤ minB) :
    ∀ r y, hScanGo mat m n x i1 i2 minB y r 0 = [] := by
  intro r
  induction r with
  | zero =>
      intro y
      simp [hScanGo, emitBlock, Nat.le_zero, Nat.one_le_iff_ne_zero.mp hmin]
  | succ r ih =>
      intro y
      rw [hScanGo, hm]
      simp only [Bool.false_eq_true, if_false]
      rw [ih (y + 1)]
      simp [emitBlock, Nat.le_zero, Nat.one_le_iff_ne_zero.mp hmin]

/-- The effective minimum is at least the configured minimum. -/
theorem min_block_size_le_calc (cfg : Config) (m n : Nat) :
    cfg.min_block_size ≤ calc_min_block_size cfg m n :=
  Nat.le_max_left _ _

/-- A pair of files sharing no line hash produces no blocks (for a
positive configured minimum block size). -/
theorem process_file_pair_no_shared_hash (s1 s2 : SourceFile)
    (i1 i2 : Nat) (cfg : Config) (hmin : 1 ≤ cfg.min_block_size)
    (h : ∀ l1 ∈ s1.source_lines, ∀ l2 ∈ s2.source_lines, l1.hash ≠ l2.hash) :
    process_file_pair s1 s2 i1 i2 cfg = [] := by
  unfold process_file_pair
  dsimp only
  split
  · rfl
  · have hmat := buildMatrix_no_match s1.source_lines s2.source_lines h
    have hmin2 : 1 ≤ calc_min_block_size cfg s1.num_lines s2.num_lines :=
      le_trans hmin (min_block_size_le_calc cfg _ _)
    have hv : vScan (buildMatrix s1.source_lines s2.source_lines) s1.num_lines
        s2.num_lines i1 i2
        (calc_min_block_size cfg s1.num_lines s2.num_lines) (i1 == i2) = [] := by
      unfold vScan
      rw [List.flatMap_eq_nil_iff]
      intro y _
      exact vScanGo_all_false _ _ _ _ _ _ _ _ hmat hmin2 _ 0
    have hh : hScan (buildMatrix s1.source_lines s2.source_lines) s1.num_lines
        s2.num_lines i1 i2
        (calc_min_block_size cfg s1.num_lines s2.num_lines) = [] := by
      unfold hScan
      rw [List.flatMap_eq_nil_iff]
      intro x _
      exact hScanGo_all_false _ _ _ _ _ _ _ hmat hmin2 _ 0
    rw [hv]
    split
    · rfl
    · rw [hh]
      rfl

/-- Membership in the index after inserting one file's lines. -/
theorem mem_indexLines (fi h j : Nat) :
    ∀ (ls : List SourceLine) (idx : Nat → List Nat),
      (j ∈ indexLines fi ls idx h ↔
        j ∈ idx h ∨ (j = fi ∧ ∃ l ∈ ls, l.hash = h))
  | [], idx => by simp [indexLines]
  | l :: rest, idx => by
      rw [indexLines, mem_indexLines fi h j rest]
      unfold idxUpdate
      by_cases hk : h = l.hash
      · rw [if_pos hk]
        subst hk
        simp only [List.mem_append, List.mem_singleton]
        constructor
        · rintro ((hj | hj) | ⟨hj, l2, hl2, hh⟩)
          · exact Or.inl hj
          · exact Or.inr ⟨hj, l, List.mem_cons_self _ _, rfl⟩
          · exact Or.inr ⟨hj, l2, List.mem_cons_of_mem _ hl2, hh⟩
        · rintro (hj | ⟨hj, l2, hl2, hh⟩)
          · exact Or.inl (Or.inl hj)
          · exact Or.inl (Or.inr hj)
      · rw [if_neg hk]
        constructor
        · rintro (hj | ⟨hj, l2, hl2, hh⟩)
          · exact Or.inl hj
          · exact Or.inr ⟨hj, l2, List.mem_cons_of_mem _ hl2, hh⟩
        · rintro (hj | ⟨hj, l2, hl2, hh⟩)
          · exact Or.inl hj
          · rcases List.mem_cons.mp hl2 with rfl | hl2
            · exact absurd hh.symm hk
            · exact Or.inr ⟨hj, l2, hl2, hh⟩

/-- Membership in the index after inserting a list of files numbered from
`start`. -/
theorem mem_indexFilesFrom (h j : Nat) :
    ∀ (files : List SourceFile) (start : Nat) (idx : Nat → List Nat),
      (j ∈ indexFilesFrom start files idx h ↔
        j ∈ idx h ∨ ∃ k, k < files.length ∧ j = start + k ∧
          ∃ l ∈ (files.getD k default).source_lines, l.hash = h)
  | [], start, idx => by simp [indexFilesFrom]
  | sf :: rest, start, idx => by
      rw [indexFilesFrom, mem_indexFilesFrom h j rest, mem_indexLines]
      simp only [List.length_cons]
      constructor
      · rintro ((hj | ⟨hj, l, hl, hh⟩) | ⟨k, hk, hj, l, hl, hh⟩)
        · exact Or.inl hj
        · exact Or.inr ⟨0, Nat.succ_pos _, by omega, l, hl, hh⟩
        · exact Or.inr ⟨k + 1, by omega, by omega, l, by simpa using hl, hh⟩
      · rintro (hj | ⟨k, hk, hj, l, hl, hh⟩)
        · exact Or.inl (Or.inl hj)
        · match k with
          | 0 => exact Or.inl (Or.inr ⟨by omega, l, by simpa using hl, hh⟩)
          | k + 1 =>
              exact Or.inr ⟨k, by omega, by omega, l, by simpa using hl, hh⟩

/-- A file index absent from the matching set shares no line hash with the
probed file. -/
theorem matching_false_no_shared_hash (files : List SourceFile)
    (sf : SourceFile) (j : Nat) (hj : j < files.length)
    (hfalse : get_matching_files sf (build_hash_index files) j = false) :
    ∀ l1 ∈ sf.source_lines,
      ∀ l2 ∈ (files.getD j default).source_lines, l1.hash ≠ l2.hash := by
  intro l1 hl1 l2 hl2 heq
  have hnot := List.any_eq_false.mp hfalse l1 hl1
  apply hnot
  rw [List.elem_iff]
  unfold build_hash_index
  rw [mem_indexFilesFrom]
  exact Or.inr ⟨j, hj, (Nat.zero_add j).symm, l2, hl2, heq.symm⟩

/-- The pruned task equals the all-pairs task: every pruned pair would
have produced no blocks anyway. -/
theorem processTask_eq_allPairs (files : List SourceFile) (cfg : Config)
    (i : Nat) (hmin : 1 ≤ cfg.min_block_size) :
    processTask files (build_hash_index files) cfg i =
      processTaskAllPairs files cfg i := by
  unfold processTask processTaskAllPairs
  refine congrArg _ ?_
  unfold List.flatMap
  refine congrArg List.flatten (List.map_congr_left ?_)
  intro p hp
  have hpe : p ∈ files.enum := List.mem_of_mem_drop hp
  have hlt : p.1 < files.length := by
    have := List.mem_enumFrom hpe
    simpa using this.2.1
  have hget : p.2 = files[p.1] := by
    have := List.mem_enumFrom hpe
    simpa using this.2.2
  by_cases hskip :
      (cfg.ignore_same_filename &&
        (files.getD i default).has_same_basename p.2) = true
  · rw [if_pos hskip, if_pos hskip]
  · rw [if_neg hskip, if_neg hskip]
    by_cases hmatch :
        get_matching_files (files.getD i default) (build_hash_index files) p.1 =
          true
    · rw [hmatch]
      simp
    · have hfalse :
          get_matching_files (files.getD i default) (build_hash_index files)
            p.1 = false := by
        revert hmatch
        cases get_matching_files (files.getD i default) (build_hash_index files)
          p.1 <;> simp
      rw [hfalse]
      simp only [Bool.not_false, if_pos]
      have hshared := matching_false_no_shared_hash files
        (files.getD i default) p.1 hlt hfalse
      have hpair := process_file_pair_no_shared_hash (files.getD i default)
        p.2 i p.1 cfg hmin
        (by
          intro l1 hl1 l2 hl2
          apply hshared l1 hl1 l2
          rw [hget] at hl2
          rw [List.getD_eq_getElem?_getD, List.getElem?_eq_getElem hlt]
          simpa using hl2)
      rw [hpair]

/-! ## Claim C10 -/

/-- C10: index pruning is lossless.  For a positive configured minimum
block size: (a) any file pair sharing no cleaned-line hash produces no
blocks, and (b) the detection loop that skips pairs `j` outside the
matching set computed from the inverted index produces exactly the same
block list (hence the same multiset) as running the match engine on every
pair. -/
theorem index_pruning_lossless (cfg : Config) (files : List SourceFile)
    (ftc : Nat) (hmin : 1 ≤ cfg.min_block_size) :
    (∀ i j : Nat, ∀ s1 s2 : SourceFile,
        (∀ l1 ∈ s1.source_lines, ∀ l2 ∈ s2.source_lines, l1.hash ≠ l2.hash) →
        process_file_pair s1 s2 i j cfg = []) ∧
      detectBlocks files cfg ftc = detectBlocksAllPairs files cfg ftc := by
  constructor
  · intro i j s1 s2 hsh
    exact process_file_pair_no_shared_hash s1 s2 i j cfg hmin hsh
  · unfold detectBlocks detectBlocksAllPairs
    refine congrArg List.flatten (List.map_congr_left ?_)
    intro i _
    exact processTask_eq_allPairs files cfg i hmin

/-- Witness for C10: two concrete files with no common hash produce no
blocks, and pruned and unpruned detection agree on `c1_file1, c3_file2`. -/
theorem index_pruning_lossless_witness :
    (∀ i j : Nat, ∀ s1 s2 : SourceFile,
        (∀ l1 ∈ s1.source_lines, ∀ l2 ∈ s2.source_lines, l1.hash ≠ l2.hash) →
        process_file_pair s1 s2 i j c1_cfg = []) ∧
      detectBlocks [c1_file1, c3_file2] c1_cfg 2 =
        detectBlocksAllPairs [c1_file1, c3_file2] c1_cfg 2 :=
  index_pruning_lossless c1_cfg [c1_file1, c3_file2] 2 (by decide)

/-! ## Claim C8: helper lemma -/

/-- The loader never reads `num_threads`: the per-path loop is unchanged
when only the thread count differs. -/
theorem loadFold_num_threads (loadFn : List Char → Nat → Option (List SourceLine))
    (H : Hashers) (fs : List Char → Option (List Nat)) (cfg : Config) (t : Nat)
    (cache : Option FileCache) :
    ∀ (fl : List (List Char))
      (st : List SourceFile × Nat × Nat × (Nat → Option (Option CacheEntry))),
      loadFold loadFn H fs { cfg with num_threads := t } cache fl st =
        loadFold loadFn H fs cfg cache fl st
  | [], _st => rfl
  | path :: rest, (sfs, ml, hits, store) => by
      rw [loadFold.eq_def, loadFold.eq_def]
      dsimp only
      cases cache with
      | none =>
          dsimp only
          cases loadFn path cfg.min_chars with
          | none => exact loadFold_num_threads loadFn H fs cfg t none rest _
          | some lines =>
              dsimp only
              exact if_congr Iff.rfl
                (loadFold_num_threads loadFn H fs cfg t none rest _)
                (loadFold_num_threads loadFn H fs cfg t none rest _)
      | some c =>
          dsimp only
          cases (FileCache.get H c fs store path).1 with
          | some lines =>
              dsimp only
              exact if_congr Iff.rfl
                (loadFold_num_threads loadFn H fs cfg t (some c) rest _)
                (loadFold_num_threads loadFn H fs cfg t (some c) rest _)
          | none =>
              dsimp only
              cases loadFn path cfg.min_chars with
              | none => exact loadFold_num_threads loadFn H fs cfg t (some c) rest _
              | some lines =>
                  dsimp only
                  exact if_congr Iff.rfl
                    (loadFold_num_threads loadFn H fs cfg t (some c) rest _)
                    (loadFold_num_threads loadFn H fs cfg t (some c) rest _)

/-! ## Claim C8 -/

/-- C8: for the same file list, filesystem, cache and configuration, a run
with `num_threads = 1` and a run with any `num_threads = t > 1` produce
the same block list (hence the same multiset): the thread count is only
consumed by the pool size (modelled away by rayon's order-preserving
indexed collect) and by the text of the file-too-large error. -/
theorem process_files_blocks_thread_independent
    (loadFn : List Char → Nat → Option (List SourceLine)) (H : Hashers)
    (fs : List Char → Option (List Nat)) (fl : List (List Char)) (cfg : Config)
    (cache : Option FileCache) (store : Nat → Option (Option CacheEntry))
    (t : Nat) (h1 : cfg.num_threads = 1) (ht : 1 < t) :
    resultBlocks (process_files_with_cache loadFn H fs fl cfg cache store) =
      resultBlocks
        (process_files_with_cache loadFn H fs fl { cfg with num_threads := t }
          cache store) := by
  unfold process_files_with_cache load_source_files_with_cache
  rw [loadFold_num_threads loadFn H fs cfg t cache fl ([], 0, 0, store)]
  dsimp only
  by_cases hbig : MAX_BITS_PER_THREAD <
      (loadFold loadFn H fs cfg cache fl ([], 0, 0, store)).2.1 *
        (loadFold loadFn H fs cfg cache fl ([], 0, 0, store)).2.1
  · rw [if_pos hbig, if_pos hbig]
    rfl
  · rw [if_neg hbig, if_neg hbig]
    rfl

/-- Witness for C8: a one-file corpus loaded through a concrete loader,
compared between 1 thread and 2 threads. -/
theorem process_files_blocks_thread_independent_witness :
    resultBlocks
        (process_files_with_cache
          (fun p _ => some [SourceLine.new p 1]) concreteHashers
          (fun _ => none) ["a.c".toList] c1_cfg none (fun _ => none)) =
      resultBlocks
        (process_files_with_cache
          (fun p _ => some [SourceLine.new p 1]) concreteHashers
          (fun _ => none) ["a.c".toList] { c1_cfg with num_threads := 2 } none
          (fun _ => none)) :=
  process_files_blocks_thread_independent
    (fun p _ => some [SourceLine.new p 1]) concreteHashers (fun _ => none)
    ["a.c".toList] c1_cfg none (fun _ => none) 2 rfl (by decide)

end Duplo
